import Mathlib

/-!
Verification of the Order-Cart-Inventory consistency core of the
smart-ecommerce-system repository.

The relational state (products, cart, orders, order_items, payments tables)
is embedded as a record of association lists keyed by integer ids, and each
data-access / service function of the source is translated to a pure Lean
function on that state.  SQL conditional updates become guarded functional
updates; the order-creation transaction's commit-or-rollback behaviour is
the function either returning the fully updated state or the original one.
-/

namespace SmartEcommerce

/-- Order lifecycle statuses (the order_status column). -/
inductive OrderStatus
  | Pending
  | Confirmed
  | Processing
  | Shipped
  | Delivered
  | Cancelled
  | Returned
deriving DecidableEq, Repr

/-- Payment methods (the payment_method column). -/
inductive PayMethod
  | COD
  | Card
  | UPI
deriving DecidableEq, Repr

/-- Payment statuses (the payment_status column). -/
inductive PayStatus
  | Pending
  | Success
  | Failed
  | Refunded
deriving DecidableEq, Repr

/-- One row of the products table (the columns the core reads/writes). -/
structure Product where
  stock : Int
  price : Int
  name : String
  is_active : Bool
deriving DecidableEq, Repr

/-- One row of the cart table: unique (user_id, product_id) pair. -/
structure CartLine where
  user_id : Nat
  product_id : Nat
  quantity : Int
deriving DecidableEq, Repr

/-- Validated shipping data supplied by the checkout flow. -/
structure ShippingData where
  address : String
  city : String
  state : String
  pincode : String
  phone : String
deriving DecidableEq, Repr

/-- One row of the orders table. `updated_at` is a timestamp in seconds;
it is set by every status update (and serves as the delivery time once the
status becomes Delivered, as in check_returnable.py). -/
structure OrderRow where
  id : Nat
  user_id : Nat
  order_number : String
  total_amount : Int
  shipping : ShippingData
  status : OrderStatus
  return_reason : Option String
  updated_at : Nat
deriving DecidableEq, Repr

/-- One row of the order_items table (price/name snapshots). -/
structure OrderItemRow where
  order_id : Nat
  product_id : Nat
  product_name : String
  product_price : Int
  quantity : Int
  subtotal : Int
deriving DecidableEq, Repr

/-- One row of the payments table (unique on order_id). -/
structure PaymentRow where
  order_id : Nat
  transaction_id : String
  payment_method : PayMethod
  amount : Int
  payment_status : PayStatus
deriving DecidableEq, Repr

/-- A cart item as returned by Cart.get_cart_items: cart line joined with
its (active) product row; subtotal = quantity * price. -/
structure CartItemView where
  product_id : Nat
  name : String
  price : Int
  stock : Int
  quantity : Int
  subtotal : Int
deriving DecidableEq, Repr

/-- The relational database state used by the consistency core. -/
structure DBState where
  products : List (Nat × Product)
  cart : List CartLine
  orders : List OrderRow
  order_items : List OrderItemRow
  payments : List PaymentRow
  nextOrderId : Nat
deriving DecidableEq, Repr

/-- SELECT the product row with the given id (first match). -/
def lookupP (ps : List (Nat × Product)) (pid : Nat) : Option Product :=
  (ps.find? (fun e => e.1 == pid)).map (fun e => e.2)

/-- UPDATE the product row(s) with the given id to `p`. -/
def setProduct (ps : List (Nat × Product)) (pid : Nat) (p : Product) :
    List (Nat × Product) :=
  ps.map (fun e => if e.1 == pid then (e.1, p) else e)

/-- Product.update_stock on the products table:
UPDATE products SET stock = stock + delta WHERE id = pid AND (stock + delta) >= 0;
returns (rowcount > 0, new table). -/
def update_stockP (ps : List (Nat × Product)) (pid : Nat) (delta : Int) :
    Bool × List (Nat × Product) :=
  match lookupP ps pid with
  | none => (false, ps)
  | some p =>
    if 0 ≤ p.stock + delta then
      (true, setProduct ps pid { p with stock := p.stock + delta })
    else (false, ps)

/-- Product.update_stock (also ProductService.update_stock) on the full state. -/
def update_stock (db : DBState) (pid : Nat) (delta : Int) : Bool × DBState :=
  let r := update_stockP db.products pid delta
  (r.1, { db with products := r.2 })

/-- Product.check_stock: SELECT stock WHERE id = pid AND is_active = TRUE,
then stock >= required; False when no row. -/
def check_stock (db : DBState) (pid : Nat) (required : Int) : Bool :=
  match lookupP db.products pid with
  | some p => p.is_active && decide (required ≤ p.stock)
  | none => false

/-- Product.update restricted to the columns the core touches: a dynamic
partial update that writes each supplied field unconditionally (in
particular `stock = %s` with no stock condition).  Returns False when no
field is supplied or the product row is absent. -/
def product_update (db : DBState) (pid : Nat)
    (priceOpt stockOpt : Option Int) (activeOpt : Option Bool) :
    Bool × DBState :=
  if priceOpt.isNone && stockOpt.isNone && activeOpt.isNone then (false, db)
  else
    match lookupP db.products pid with
    | none => (false, db)
    | some p =>
      let p1 := match priceOpt with
        | some v => { p with price := v }
        | none => p
      let p2 := match stockOpt with
        | some v => { p1 with stock := v }
        | none => p1
      let p3 := match activeOpt with
        | some v => { p2 with is_active := v }
        | none => p2
      (true, { db with products := setProduct db.products pid p3 })

/-- The quantity of the (user, product) cart line, if present. -/
def getCartQty (db : DBState) (user_id pid : Nat) : Option Int :=
  (db.cart.find? (fun l => l.user_id == user_id && l.product_id == pid)).map
    (fun l => l.quantity)

/-- Cart.add_item: fails on qty <= 0, on absent/inactive product, and when
the merged quantity would exceed current stock; otherwise merges into the
existing (user, product) line or inserts a new one. -/
def add_item (db : DBState) (user_id pid : Nat) (qty : Int) : Bool × DBState :=
  if qty ≤ 0 then (false, db)
  else
    match lookupP db.products pid with
    | none => (false, db)
    | some p =>
      if !p.is_active then (false, db)
      else
        match db.cart.find? (fun l => l.user_id == user_id && l.product_id == pid) with
        | some existing =>
          let newQty := existing.quantity + qty
          if p.stock < newQty then (false, db)
          else
            (true, { db with cart := db.cart.map (fun l =>
              if l.user_id == user_id && l.product_id == pid then
                { l with quantity := newQty } else l) })
        | none =>
          if p.stock < qty then (false, db)
          else (true, { db with cart := db.cart ++ [⟨user_id, pid, qty⟩] })

/-- Cart.get_cart_items: the user's cart lines joined with their product
rows, restricted to active products. -/
def get_cart_items (db : DBState) (user_id : Nat) : List CartItemView :=
  db.cart.filterMap (fun l =>
    if l.user_id == user_id then
      match lookupP db.products l.product_id with
      | some p =>
        if p.is_active then
          some ⟨l.product_id, p.name, p.price, p.stock, l.quantity,
                l.quantity * p.price⟩
        else none
      | none => none
    else none)

/-- Cart.get_cart_total: SUM(quantity * price) over the user's active lines. -/
def get_cart_total (db : DBState) (user_id : Nat) : Int :=
  (get_cart_items db user_id).foldl (fun acc it => acc + it.quantity * it.price) 0

/-- Cart.clear_cart: DELETE FROM cart WHERE user_id = user. -/
def clear_cart (db : DBState) (user_id : Nat) : DBState :=
  { db with cart := db.cart.filter (fun l => l.user_id != user_id) }

/-- Modelled from the spec: the database trigger trg_update_stock (defined in
the database schema file, which is not under src/) fires on each order_items
insert and performs the Inventory Ledger conditional decrement — stock is
reduced by the inserted quantity only if the result stays nonnegative; a
failing conditional update (or a foreign-key miss) aborts the enclosing
transaction, returned here as `none`. -/
def trg_update_stock (ps : List (Nat × Product)) (pid : Nat) (qty : Int) :
    Option (List (Nat × Product)) :=
  match lookupP ps pid with
  | none => none
  | some p =>
    if 0 ≤ p.stock - qty then
      some (setProduct ps pid { p with stock := p.stock - qty })
    else none

/-- The order item row produced for a cart item. -/
def toItemRow (oid : Nat) (it : CartItemView) : OrderItemRow :=
  ⟨oid, it.product_id, it.name, it.price, it.quantity, it.subtotal⟩

/-- The order_items insert loop of OrderService.create_order step 2b: each
insert fires trg_update_stock; any failure aborts (rolls back) the whole
write phase. -/
def insertOrderItems (ps : List (Nat × Product)) (oid : Nat)
    (items : List CartItemView) :
    Option (List OrderItemRow × List (Nat × Product)) :=
  match items with
  | [] => some ([], ps)
  | it :: rest =>
    match trg_update_stock ps it.product_id it.quantity with
    | none => none
    | some ps1 =>
      match insertOrderItems ps1 oid rest with
      | none => none
      | some (rows, ps2) => some (toItemRow oid it :: rows, ps2)

/-- OrderService.create_order: read phase (cart fetch, optimistic stock
pre-check, total), then the atomic write phase (order header insert, item
inserts firing the stock-decrement trigger, cart clearing) which commits as
a whole or rolls back to the original state (the `transaction` helper of
database/db_connection is modelled by this commit-or-rollback shape).
`order_number` abstracts the random date-based generator and `now` the
insertion timestamp. -/
def create_order (db : DBState) (user_id : Nat) (shipping : ShippingData)
    (order_number : String) (now : Nat) : Option OrderRow × DBState :=
  let cart_items := get_cart_items db user_id
  if cart_items.isEmpty then (none, db)
  else if !(cart_items.all (fun it => check_stock db it.product_id it.quantity)) then
    (none, db)
  else
    let total := get_cart_total db user_id
    let oid := db.nextOrderId
    let header : OrderRow :=
      ⟨oid, user_id, order_number, total, shipping, OrderStatus.Pending, none, now⟩
    match insertOrderItems db.products oid cart_items with
    | none => (none, db)
    | some (rows, ps2) =>
      (some header,
        { db with
            products := ps2
            orders := db.orders ++ [header]
            order_items := db.order_items ++ rows
            cart := db.cart.filter (fun l => l.user_id != user_id)
            nextOrderId := oid + 1 })

/-- Order.get_by_id. -/
def get_by_id (db : DBState) (oid : Nat) : Option OrderRow :=
  db.orders.find? (fun o => o.id == oid)

/-- Order.get_order_items: SELECT * FROM order_items WHERE order_id = oid. -/
def get_order_items (db : DBState) (oid : Nat) : List OrderItemRow :=
  db.order_items.filter (fun r => r.order_id == oid)

/-- UPDATE orders SET ... WHERE id = oid, applied to every matching row. -/
def updateOrders (orders : List OrderRow) (oid : Nat) (f : OrderRow → OrderRow) :
    List OrderRow :=
  orders.map (fun o => if o.id == oid then f o else o)

/-- Set an order row's status and update timestamp. -/
def setStatus (st : OrderStatus) (now : Nat) (o : OrderRow) : OrderRow :=
  { o with status := st, updated_at := now }

/-- Order.update_status: UPDATE orders SET order_status = st,
updated_at = CURRENT_TIMESTAMP WHERE id = oid; True iff a row matched. -/
def update_status (db : DBState) (oid : Nat) (st : OrderStatus) (now : Nat) :
    Bool × DBState :=
  if (db.orders.find? (fun o => o.id == oid)).isSome then
    (true, { db with orders := (updateOrders db.orders oid (setStatus st now)) })
  else (false, db)

/-- Set an order row's status, recorded reason and update timestamp. -/
def markOrder (st : OrderStatus) (reason : String) (now : Nat) (o : OrderRow) :
    OrderRow :=
  { o with status := st, return_reason := some reason, updated_at := now }

/-- Modelled from the spec: Order.cancel_order (called by the service but
absent from src/models/order.py) sets the status to Cancelled and records
the reason; True iff the order row exists. -/
def cancel_order_row (db : DBState) (oid : Nat) (reason : String) (now : Nat) :
    Bool × DBState :=
  if (db.orders.find? (fun o => o.id == oid)).isSome then
    (true, { db with orders :=
      (updateOrders db.orders oid (markOrder OrderStatus.Cancelled reason now)) })
  else (false, db)

/-- Modelled from the spec: Order.return_order (called by the service but
absent from src/models/order.py) sets the status to Returned and records
the reason; True iff the order row exists. -/
def return_order_row (db : DBState) (oid : Nat) (reason : String) (now : Nat) :
    Bool × DBState :=
  if (db.orders.find? (fun o => o.id == oid)).isSome then
    (true, { db with orders :=
      (updateOrders db.orders oid (markOrder OrderStatus.Returned reason now)) })
  else (false, db)

/-- Modelled from the spec: the is_returnable column read by the service
(computed in the database schema, which is not under src/), with the formula
of src/check_returnable.py: order_status = Delivered AND
updated_at >= CURRENT_TIMESTAMP - INTERVAL 7 days. -/
def is_returnable (o : OrderRow) (now : Nat) : Bool :=
  o.status == OrderStatus.Delivered && decide (now ≤ o.updated_at + 7 * 86400)

/-- The stock-restoration loop of cancel/return: for each order item,
ProductService.update_stock(product_id, quantity), result ignored. -/
def restoreP (ps : List (Nat × Product)) (rows : List OrderItemRow) :
    List (Nat × Product) :=
  rows.foldl (fun cur r => (update_stockP cur r.product_id r.quantity).2) ps

/-- OrderService.cancel_order: lookup, authorization check, status check
(Delivered/Cancelled only), Order.cancel_order, then per-line stock
restoration. -/
def cancel_order (db : DBState) (oid user_id : Nat) (reason : String)
    (now : Nat) : (Bool × String) × DBState :=
  match get_by_id db oid with
  | none => ((false, "Order not found"), db)
  | some o =>
    if o.user_id ≠ user_id then ((false, "Unauthorized"), db)
    else if o.status = OrderStatus.Delivered ∨ o.status = OrderStatus.Cancelled then
      ((false, "Order cannot be cancelled"), db)
    else
      match cancel_order_row db oid reason now with
      | (false, db1) => ((false, "Failed to cancel order"), db1)
      | (true, db1) =>
        let items := get_order_items db1 oid
        ((true, "Order cancelled successfully"),
          { db1 with products := restoreP db1.products items })

/-- OrderService.return_order: lookup, authorization check, is_returnable
eligibility check, Order.return_order, then per-line stock restoration. -/
def return_order (db : DBState) (oid user_id : Nat) (reason : String)
    (now : Nat) : (Bool × String) × DBState :=
  match get_by_id db oid with
  | none => ((false, "Order not found"), db)
  | some o =>
    if o.user_id ≠ user_id then ((false, "Unauthorized"), db)
    else if !(is_returnable o now) then
      ((false, "Order not eligible for return"), db)
    else
      match return_order_row db oid reason now with
      | (false, db1) => ((false, "Failed to submit return request"), db1)
      | (true, db1) =>
        let items := get_order_items db1 oid
        ((true, "Return request submitted"),
          { db1 with products := restoreP db1.products items })

/-- OrderService.finalize_order: Order.update_status(oid, Confirmed); stock
is not touched (already decremented by the trigger at creation). -/
def finalize_order (db : DBState) (oid : Nat) (now : Nat) : Bool × DBState :=
  update_status db oid OrderStatus.Confirmed now

/-- Payment.process_payment: the simulated decision rule — Pending for COD,
Success otherwise — followed by the INSERT ... ON CONFLICT (order_id)
DO UPDATE upsert; returns the resulting payment row. -/
def process_payment (db : DBState) (oid : Nat) (method : PayMethod)
    (amount : Int) (txid : String) : Option PaymentRow × DBState :=
  let st := if method = PayMethod.COD then PayStatus.Pending else PayStatus.Success
  let row : PaymentRow := ⟨oid, txid, method, amount, st⟩
  if (db.payments.find? (fun p => p.order_id == oid)).isSome then
    (some row, { db with payments := db.payments.map (fun p =>
      if p.order_id == oid then row else p) })
  else
    (some row, { db with payments := db.payments ++ [row] })

/-- The stock of a product as observed through lookup. -/
def stockOf (db : DBState) (pid : Nat) : Option Int :=
  (lookupP db.products pid).map (fun p => p.stock)

/-- The product ids of a list of order item rows. -/
def itemPids (rows : List OrderItemRow) : List Nat :=
  rows.map (fun r => r.product_id)

/-- The product ids of a list of cart item views. -/
def viewPids (items : List CartItemView) : List Nat :=
  items.map (fun it => it.product_id)

/-! ### Basic lookup/update lemmas -/

theorem lookupP_set (ps : List (Nat × Product)) (pid : Nat) (p : Product)
    (q : Nat) :
    lookupP (setProduct ps pid p) q =
      if q = pid then (lookupP ps q).map (fun _ => p) else lookupP ps q := by
  induction ps with
  | nil =>
    simp only [setProduct, List.map_nil, lookupP, List.find?_nil, Option.map_none]
    split <;> rfl
  | cons e rest ih =>
    have hhead : (if (e.1 == pid) = true then (e.1, p) else e).1 = e.1 := by
      split <;> rfl
    by_cases hq : e.1 = q
    · have h1 : List.find? (fun x => x.1 == q) (setProduct (e :: rest) pid p)
          = some (if (e.1 == pid) = true then (e.1, p) else e) := by
        simp only [setProduct, List.map_cons]
        apply List.find?_cons_of_pos
        show ((if (e.1 == pid) = true then (e.1, p) else e).1 == q) = true
        rw [hhead]
        simp [hq]
      have h2 : List.find? (fun x => x.1 == q) (e :: rest) = some e :=
        List.find?_cons_of_pos _ (by simp [hq])
      unfold lookupP
      rw [h1, h2]
      by_cases hp : e.1 = pid
      · have hqp : q = pid := by rw [← hq, hp]
        simp [hp, hqp]
      · have hqp : ¬ q = pid := fun h => hp (by rw [hq, h])
        simp [hp, hqp]
    · have h1 : List.find? (fun x => x.1 == q) (setProduct (e :: rest) pid p)
          = List.find? (fun x => x.1 == q) (setProduct rest pid p) := by
        simp only [setProduct, List.map_cons]
        apply List.find?_cons_of_neg
        show ¬ ((if (e.1 == pid) = true then (e.1, p) else e).1 == q) = true
        rw [hhead]
        simp [hq]
      have h2 : List.find? (fun x => x.1 == q) (e :: rest)
          = List.find? (fun x => x.1 == q) rest :=
        List.find?_cons_of_neg _ (by simp [hq])
      unfold lookupP
      rw [h1, h2]
      exact ih

theorem lookupP_mem (ps : List (Nat × Product)) (pid : Nat) (p : Product)
    (h : lookupP ps pid = some p) : (pid, p) ∈ ps := by
  unfold lookupP at h
  cases hf : ps.find? (fun e => e.1 == pid) with
  | none => rw [hf] at h; simp at h
  | some e =>
    rw [hf] at h
    simp at h
    have he : e ∈ ps := List.mem_of_find?_eq_some hf
    have hk : e.1 = pid := by
      have := List.find?_some hf
      simpa using this
    cases e with
    | mk k v =>
      simp only at hk h
      subst hk
      subst h
      exact he

theorem nonneg_setProduct (ps : List (Nat × Product)) (pid : Nat) (p : Product)
    (hps : ∀ e ∈ ps, 0 ≤ e.2.stock) (hp : 0 ≤ p.stock) :
    ∀ e ∈ setProduct ps pid p, 0 ≤ e.2.stock := by
  intro e he
  unfold setProduct at he
  rcases List.mem_map.mp he with ⟨e0, he0, rfl⟩
  by_cases h : e0.1 = pid
  · simp [h, hp]
  · simpa [h] using hps e0 he0

theorem update_stockP_nonneg (ps : List (Nat × Product)) (pid : Nat)
    (delta : Int) (hps : ∀ e ∈ ps, 0 ≤ e.2.stock) :
    ∀ e ∈ (update_stockP ps pid delta).2, 0 ≤ e.2.stock := by
  unfold update_stockP
  cases h : lookupP ps pid with
  | none => simpa using hps
  | some p =>
    by_cases hc : 0 ≤ p.stock + delta
    · simpa [hc] using nonneg_setProduct ps pid _ hps hc
    · simpa [hc] using hps

/-- The lookups of the state after update_stockP, in terms of the lookups
of the state before it. -/
theorem update_stockP_lookup (ps : List (Nat × Product)) (pid : Nat)
    (delta : Int) (q : Nat) :
    lookupP (update_stockP ps pid delta).2 q =
      match lookupP ps pid with
      | none => lookupP ps q
      | some p =>
        if 0 ≤ p.stock + delta then
          (if q = pid then some { p with stock := p.stock + delta }
           else lookupP ps q)
        else lookupP ps q := by
  unfold update_stockP
  cases h : lookupP ps pid with
  | none => rfl
  | some p =>
    by_cases hc : 0 ≤ p.stock + delta
    · simp only [hc, if_true]
      rw [lookupP_set]
      by_cases hq : q = pid
      · subst hq; simp [h]
      · simp [hq]
    · simp [hc]

theorem update_stockP_frame (ps : List (Nat × Product)) (pid : Nat)
    (delta : Int) (q : Nat) (hq : q ≠ pid) :
    lookupP (update_stockP ps pid delta).2 q = lookupP ps q := by
  rw [update_stockP_lookup]
  cases lookupP ps pid with
  | none => rfl
  | some p => by_cases hc : 0 ≤ p.stock + delta <;> simp [hc, hq]

/-! ### Trigger lemmas -/

theorem trg_effect (ps : List (Nat × Product)) (pid : Nat) (qty : Int)
    (ps1 : List (Nat × Product))
    (h : trg_update_stock ps pid qty = some ps1) :
    ∃ p, lookupP ps pid = some p ∧ 0 ≤ p.stock - qty ∧
      ps1 = setProduct ps pid { p with stock := p.stock - qty } := by
  unfold trg_update_stock at h
  cases hl : lookupP ps pid with
  | none => rw [hl] at h; exact absurd h (by simp)
  | some p =>
    rw [hl] at h
    by_cases hc : 0 ≤ p.stock - qty
    · refine ⟨p, rfl, hc, ?_⟩
      simp only [hc, if_true, Option.some.injEq] at h
      exact h.symm
    · simp [hc] at h

theorem trg_lookup_same (ps : List (Nat × Product)) (pid : Nat) (qty : Int)
    (ps1 : List (Nat × Product)) (p : Product)
    (h : trg_update_stock ps pid qty = some ps1)
    (hl : lookupP ps pid = some p) :
    lookupP ps1 pid = some { p with stock := p.stock - qty } := by
  obtain ⟨p0, hl0, _, rfl⟩ := trg_effect ps pid qty ps1 h
  rw [hl0] at hl
  cases hl
  rw [lookupP_set]
  simp [hl0]

theorem trg_frame (ps : List (Nat × Product)) (pid : Nat) (qty : Int)
    (ps1 : List (Nat × Product)) (h : trg_update_stock ps pid qty = some ps1)
    (q : Nat) (hq : q ≠ pid) : lookupP ps1 q = lookupP ps q := by
  obtain ⟨p, hl, hc, rfl⟩ := trg_effect ps pid qty ps1 h
  rw [lookupP_set]
  simp [hq]

theorem trg_nonneg (ps : List (Nat × Product)) (pid : Nat) (qty : Int)
    (ps1 : List (Nat × Product)) (h : trg_update_stock ps pid qty = some ps1)
    (hnn : ∀ e ∈ ps, 0 ≤ e.2.stock) : ∀ e ∈ ps1, 0 ≤ e.2.stock := by
  obtain ⟨p, hl, hc, rfl⟩ := trg_effect ps pid qty ps1 h
  exact nonneg_setProduct ps pid _ hnn hc

/-! ### Insert-loop lemmas -/

theorem insertOrderItems_spec (items : List CartItemView) :
    ∀ ps oid rows ps2, insertOrderItems ps oid items = some (rows, ps2) →
      rows = items.map (toItemRow oid) ∧
      (∀ q, q ∉ viewPids items → lookupP ps2 q = lookupP ps q) ∧
      ((∀ e ∈ ps, 0 ≤ e.2.stock) → ∀ e ∈ ps2, 0 ≤ e.2.stock) := by
  induction items with
  | nil =>
    intro ps oid rows ps2 h
    simp only [insertOrderItems, Option.some.injEq, Prod.mk.injEq] at h
    obtain ⟨hr, hp⟩ := h
    subst hr; subst hp
    exact ⟨by simp, fun q _ => rfl, fun h => h⟩
  | cons it rest ih =>
    intro ps oid rows ps2 h
    unfold insertOrderItems at h
    cases ht : trg_update_stock ps it.product_id it.quantity with
    | none => rw [ht] at h; exact absurd h (by simp)
    | some ps1 =>
      rw [ht] at h
      dsimp only at h
      cases hrec : insertOrderItems ps1 oid rest with
      | none => rw [hrec] at h; exact absurd h (by simp)
      | some pr =>
        obtain ⟨rrows, psr⟩ := pr
        rw [hrec] at h
        dsimp only at h
        simp only [Option.some.injEq, Prod.mk.injEq] at h
        obtain ⟨hr, hp⟩ := h
        subst hp
        obtain ⟨ihrows, ihframe, ihnn⟩ := ih ps1 oid rrows psr hrec
        refine ⟨?_, ?_, ?_⟩
        · rw [← hr, ihrows]; simp
        · intro q hq
          have hq1 : q ∉ viewPids rest := by
            intro hmem; exact hq (by simp [viewPids] at hmem ⊢; right; exact hmem)
          have hq0 : q ≠ it.product_id := by
            intro hmem; exact hq (by simp [viewPids, hmem])
          rw [ihframe q hq1, trg_frame ps it.product_id it.quantity ps1 ht q hq0]
        · intro hnn
          exact ihnn (trg_nonneg ps it.product_id it.quantity ps1 ht hnn)

theorem insertOrderItems_stock (items : List CartItemView) :
    ∀ ps oid rows ps2, (viewPids items).Nodup →
      insertOrderItems ps oid items = some (rows, ps2) →
      ∀ it ∈ items, ∃ p, lookupP ps it.product_id = some p ∧
        0 ≤ p.stock - it.quantity ∧
        lookupP ps2 it.product_id =
          some { p with stock := p.stock - it.quantity } := by
  induction items with
  | nil => intro ps oid rows ps2 _ _ it hit; exact absurd hit (by simp)
  | cons it0 rest ih =>
    intro ps oid rows ps2 hnd h it hit
    unfold insertOrderItems at h
    cases ht : trg_update_stock ps it0.product_id it0.quantity with
    | none => rw [ht] at h; exact absurd h (by simp)
    | some ps1 =>
      rw [ht] at h
      dsimp only at h
      cases hrec : insertOrderItems ps1 oid rest with
      | none => rw [hrec] at h; exact absurd h (by simp)
      | some pr =>
        obtain ⟨rrows, psr⟩ := pr
        rw [hrec] at h
        dsimp only at h
        simp only [Option.some.injEq, Prod.mk.injEq] at h
        obtain ⟨hr, hp⟩ := h
        subst hp
        have hnotin : it0.product_id ∉ viewPids rest := by
          have := hnd
          simp only [viewPids, List.map_cons, List.nodup_cons] at this
          exact this.1
        have hndrest : (viewPids rest).Nodup := by
          have := hnd
          simp only [viewPids, List.map_cons, List.nodup_cons] at this
          exact this.2
        rcases List.mem_cons.mp hit with heq | hmem
        · subst heq
          obtain ⟨p, hl, hc, hps1⟩ := trg_effect ps it.product_id it.quantity ps1 ht
          refine ⟨p, hl, hc, ?_⟩
          obtain ⟨_, ihframe, _⟩ := insertOrderItems_spec rest ps1 oid rrows psr hrec
          rw [ihframe it.product_id hnotin,
              trg_lookup_same ps it.product_id it.quantity ps1 p ht hl]
        · have hne : it.product_id ≠ it0.product_id := by
            intro hcontra
            exact hnotin (hcontra ▸ (by simp [viewPids]; exact ⟨it, hmem, rfl⟩))
          obtain ⟨p, hl, hc, hfinal⟩ := ih ps1 oid rrows psr hndrest hrec it hmem
          refine ⟨p, ?_, hc, hfinal⟩
          rw [← trg_frame ps it0.product_id it0.quantity ps1 ht it.product_id hne]
          exact hl

/-! ### Stock-restoration lemmas -/

theorem itemPids_map (oid : Nat) (items : List CartItemView) :
    itemPids (items.map (toItemRow oid)) = viewPids items := by
  simp [itemPids, viewPids, toItemRow, List.map_map, Function.comp]

theorem restoreP_cons (ps : List (Nat × Product)) (r : OrderItemRow)
    (rows : List OrderItemRow) :
    restoreP ps (r :: rows) =
      restoreP (update_stockP ps r.product_id r.quantity).2 rows := rfl

theorem restoreP_frame (rows : List OrderItemRow) :
    ∀ ps q, q ∉ itemPids rows → lookupP (restoreP ps rows) q = lookupP ps q := by
  induction rows with
  | nil => intro ps q _; rfl
  | cons r rest ih =>
    intro ps q hq
    have hq0 : q ≠ r.product_id := by
      intro hc; exact hq (by simp [itemPids, hc])
    have hq1 : q ∉ itemPids rest := by
      intro hc
      apply hq
      simp only [itemPids, List.map_cons, List.mem_cons]
      right
      simpa [itemPids] using hc
    rw [restoreP_cons, ih _ q hq1, update_stockP_frame _ _ _ q hq0]

theorem restoreP_congr (rows : List OrderItemRow) :
    ∀ a b q, (∀ r ∈ rows, lookupP a r.product_id = lookupP b r.product_id) →
      lookupP a q = lookupP b q →
      lookupP (restoreP a rows) q = lookupP (restoreP b rows) q := by
  induction rows with
  | nil => intro a b q _ hq; exact hq
  | cons r rest ih =>
    intro a b q hrows hq
    rw [restoreP_cons, restoreP_cons]
    apply ih
    · intro r' hr'
      have h1 := hrows r (List.mem_cons_self r rest)
      have h2 := hrows r' (List.mem_cons_of_mem r hr')
      simp only [update_stockP_lookup, h1, h2]
    · have h1 := hrows r (List.mem_cons_self r rest)
      simp only [update_stockP_lookup, h1, hq]

theorem restoreP_mem (rows : List OrderItemRow) :
    ∀ ps, (itemPids rows).Nodup → ∀ r ∈ rows, ∀ p,
      lookupP ps r.product_id = some p → 0 ≤ p.stock + r.quantity →
      lookupP (restoreP ps rows) r.product_id =
        some { p with stock := p.stock + r.quantity } := by
  induction rows with
  | nil => intro ps _ r hr; exact absurd hr (by simp)
  | cons r0 rest ih =>
    intro ps hnd r hr p hp hc
    have hnd0 : (r0.product_id :: itemPids rest).Nodup := by
      simpa [itemPids] using hnd
    have hnotin : r0.product_id ∉ itemPids rest := (List.nodup_cons.mp hnd0).1
    have hndrest : (itemPids rest).Nodup := (List.nodup_cons.mp hnd0).2
    rcases List.mem_cons.mp hr with heq | hmem
    · subst heq
      rw [restoreP_cons, restoreP_frame rest _ _ hnotin, update_stockP_lookup,
          hp]
      dsimp only
      rw [if_pos hc, if_pos rfl]
    · have hne : r.product_id ≠ r0.product_id := by
        intro hcontra
        apply hnotin
        rw [← hcontra]
        simp only [itemPids, List.mem_map]
        exact ⟨r, hmem, rfl⟩
      rw [restoreP_cons]
      apply ih _ hndrest r hmem p _ hc
      rw [update_stockP_frame _ _ _ _ hne]
      exact hp

theorem restoreP_nonneg (rows : List OrderItemRow) :
    ∀ ps, (∀ e ∈ ps, 0 ≤ e.2.stock) → ∀ e ∈ restoreP ps rows, 0 ≤ e.2.stock := by
  induction rows with
  | nil => intro ps h; exact h
  | cons r rest ih =>
    intro ps h
    rw [restoreP_cons]
    exact ih _ (update_stockP_nonneg ps r.product_id r.quantity h)

/-- Undoing the creation-time decrements: restoring each inserted order
line's quantity brings every product's stock back to its pre-order value. -/
theorem restore_after_insert (items : List CartItemView) :
    ∀ ps oid rows ps2, (∀ e ∈ ps, 0 ≤ e.2.stock) → (viewPids items).Nodup →
      insertOrderItems ps oid items = some (rows, ps2) →
      ∀ q, lookupP (restoreP ps2 rows) q = lookupP ps q := by
  induction items with
  | nil =>
    intro ps oid rows ps2 _ _ h q
    simp only [insertOrderItems, Option.some.injEq, Prod.mk.injEq] at h
    obtain ⟨hr, hp⟩ := h
    subst hr; subst hp; rfl
  | cons it rest ih =>
    intro ps oid rows ps2 hnn hnd h q
    unfold insertOrderItems at h
    cases ht : trg_update_stock ps it.product_id it.quantity with
    | none => rw [ht] at h; exact absurd h (by simp)
    | some ps1 =>
      rw [ht] at h
      dsimp only at h
      cases hrec : insertOrderItems ps1 oid rest with
      | none => rw [hrec] at h; exact absurd h (by simp)
      | some pr =>
        obtain ⟨rrows, psr⟩ := pr
        rw [hrec] at h
        dsimp only at h
        simp only [Option.some.injEq, Prod.mk.injEq] at h
        obtain ⟨hr, hp⟩ := h
        subst hp
        subst hr
        have hnd0 : (it.product_id :: viewPids rest).Nodup := by
          simpa [viewPids] using hnd
        have hnotin : it.product_id ∉ viewPids rest := (List.nodup_cons.mp hnd0).1
        have hndrest : (viewPids rest).Nodup := (List.nodup_cons.mp hnd0).2
        obtain ⟨p, hl, hc, hps1eq⟩ := trg_effect ps it.product_id it.quantity ps1 ht
        have hnn1 : ∀ e ∈ ps1, 0 ≤ e.2.stock :=
          trg_nonneg ps it.product_id it.quantity ps1 ht hnn
        obtain ⟨hrowsEq, hframe, _⟩ := insertOrderItems_spec rest ps1 oid rrows psr hrec
        have hpidsr : itemPids rrows = viewPids rest := by
          rw [hrowsEq, itemPids_map]
        have hpsr_pid : lookupP psr it.product_id =
            some { p with stock := p.stock - it.quantity } := by
          rw [hframe it.product_id hnotin]
          exact trg_lookup_same ps it.product_id it.quantity ps1 p ht hl
        have hstock_nonneg : 0 ≤ p.stock := by
          have := hnn (it.product_id, p) (lookupP_mem ps it.product_id p hl)
          simpa using this
        rw [restoreP_cons]
        dsimp only [toItemRow]
        have hupd : lookupP (update_stockP psr it.product_id it.quantity).2
            it.product_id = some p := by
          rw [update_stockP_lookup, hpsr_pid]
          dsimp only
          have hcond : 0 ≤ p.stock - it.quantity + it.quantity := by omega
          rw [if_pos hcond, if_pos rfl]
          have heq2 : p.stock - it.quantity + it.quantity = p.stock := by omega
          rw [heq2]
        by_cases hq : q = it.product_id
        · subst hq
          rw [restoreP_frame rrows _ it.product_id
                (by rw [hpidsr]; exact hnotin), hupd, hl]
        · have hcong : lookupP
              (restoreP (update_stockP psr it.product_id it.quantity).2 rrows) q
              = lookupP (restoreP psr rrows) q := by
            apply restoreP_congr
            · intro r' hr'
              have hne : r'.product_id ≠ it.product_id := by
                intro hcontra
                apply hnotin
                rw [← hcontra, ← hpidsr]
                simp only [itemPids, List.mem_map]
                exact ⟨r', hr', rfl⟩
              exact update_stockP_frame psr it.product_id it.quantity
                r'.product_id hne
            · exact update_stockP_frame psr it.product_id it.quantity q hq
          rw [hcong, ih ps1 oid rrows psr hnn1 hndrest hrec q,
              trg_frame ps it.product_id it.quantity ps1 ht q hq]

/-! ### Order-table lemmas -/

theorem find?_orders_fresh (l : List OrderRow) (o : OrderRow)
    (hfresh : ∀ r ∈ l, r.id ≠ o.id) :
    List.find? (fun r => r.id == o.id) (l ++ [o]) = some o := by
  rw [List.find?_append]
  have hnone : List.find? (fun r => r.id == o.id) l = none := by
    rw [List.find?_eq_none]
    intro r hr
    simpa using hfresh r hr
  rw [hnone]
  simp

theorem find?_updateOrders_same (l : List OrderRow) (oid : Nat)
    (f : OrderRow → OrderRow) (hf : ∀ o, (f o).id = o.id) :
    List.find? (fun o => o.id == oid) (updateOrders l oid f) =
      (List.find? (fun o => o.id == oid) l).map f := by
  induction l with
  | nil => rfl
  | cons o rest ih =>
    by_cases ho : o.id = oid
    · have hcond : (o.id == oid) = true := by simpa using ho
      have hcond2 : ((f o).id == oid) = true := by simp [hf o, ho]
      simp only [updateOrders, List.map_cons, hcond, if_true,
                 List.find?_cons, hcond2]
      rfl
    · have hcond : (o.id == oid) = false := by simpa using ho
      simp only [updateOrders, List.map_cons, hcond, if_false,
                 Bool.false_eq_true, List.find?_cons]
      exact ih

theorem find?_updateOrders_ne (l : List OrderRow) (oid : Nat)
    (f : OrderRow → OrderRow) (hf : ∀ o, (f o).id = o.id) (oid' : Nat)
    (hne : oid' ≠ oid) :
    List.find? (fun o => o.id == oid') (updateOrders l oid f) =
      List.find? (fun o => o.id == oid') l := by
  induction l with
  | nil => rfl
  | cons o rest ih =>
    by_cases ho : o.id = oid
    · have hcond : (o.id == oid) = true := by simpa using ho
      have hne2 : ((f o).id == oid') = false := by
        simp only [hf o, ho, beq_eq_false_iff_ne, ne_eq]
        intro hcontra
        exact hne hcontra.symm
      have hne3 : (o.id == oid') = false := by
        simp only [ho, beq_eq_false_iff_ne, ne_eq]
        intro hcontra
        exact hne hcontra.symm
      simp only [updateOrders, List.map_cons, hcond, if_true,
                 List.find?_cons, hne2, hne3]
      exact ih
    · have hcond : (o.id == oid) = false := by simpa using ho
      simp only [updateOrders, List.map_cons, hcond, if_false,
                 Bool.false_eq_true, List.find?_cons]
      by_cases ho' : o.id = oid'
      · have : (o.id == oid') = true := by simpa using ho'
        simp only [this]
      · have : (o.id == oid') = false := by simpa using ho'
        simp only [this]
        exact ih

theorem filter_items_fresh (l : List OrderItemRow) (oid : Nat)
    (hfresh : ∀ r ∈ l, r.order_id ≠ oid) :
    l.filter (fun r => r.order_id == oid) = [] := by
  rw [List.filter_eq_nil_iff]
  intro r hr
  simpa using hfresh r hr

theorem filter_items_all (oid : Nat) (items : List CartItemView) :
    (items.map (toItemRow oid)).filter (fun r => r.order_id == oid) =
      items.map (toItemRow oid) := by
  rw [List.filter_eq_self]
  intro r hr
  rcases List.mem_map.mp hr with ⟨it, _, rfl⟩
  simp [toItemRow]

/-! ### create_order inversion -/

/-- The order header create_order inserts for a given call. -/
def mkHeader (db : DBState) (u : Nat) (ship : ShippingData) (onum : String)
    (now : Nat) : OrderRow :=
  ⟨db.nextOrderId, u, onum, get_cart_total db u, ship, OrderStatus.Pending,
   none, now⟩

/-- create_order either fails leaving the state untouched, or commits the
whole write phase. -/
theorem create_order_cases (db : DBState) (u : Nat) (ship : ShippingData)
    (onum : String) (now : Nat) :
    create_order db u ship onum now = (none, db) ∨
    (∃ rows ps2,
      get_cart_items db u ≠ [] ∧
      (get_cart_items db u).all
        (fun it => check_stock db it.product_id it.quantity) = true ∧
      insertOrderItems db.products db.nextOrderId (get_cart_items db u) =
        some (rows, ps2) ∧
      create_order db u ship onum now =
        (some (mkHeader db u ship onum now),
         { db with
             products := ps2
             orders := db.orders ++ [mkHeader db u ship onum now]
             order_items := db.order_items ++ rows
             cart := db.cart.filter (fun l => l.user_id != u)
             nextOrderId := db.nextOrderId + 1 })) := by
  cases hEmpty : (get_cart_items db u).isEmpty with
  | true => left; simp [create_order, hEmpty]
  | false =>
    cases hAll : (get_cart_items db u).all
        (fun it => check_stock db it.product_id it.quantity) with
    | false => left; simp [create_order, hEmpty, hAll]
    | true =>
      cases h3 : insertOrderItems db.products db.nextOrderId
          (get_cart_items db u) with
      | none => left; simp [create_order, hEmpty, hAll, h3]
      | some pr =>
        obtain ⟨rows, ps2⟩ := pr
        right
        refine ⟨rows, ps2, ?_, rfl, rfl, ?_⟩
        · intro hnil
          rw [hnil] at hEmpty
          simp at hEmpty
        · simp [create_order, hEmpty, hAll, h3, mkHeader]

/-- After the write phase the user's cart is empty. -/
theorem get_cart_items_filter (db db2 : DBState) (u : Nat)
    (hc : db2.cart = db.cart.filter (fun l => l.user_id != u)) :
    get_cart_items db2 u = [] := by
  unfold get_cart_items
  rw [hc, List.filterMap_eq_nil_iff]
  intro l hl
  have : l.user_id ≠ u := by
    have := List.of_mem_filter hl
    simpa using this
  simp [this]

/-! ### Example states used by the claim witnesses -/

/-- Shipping data used by concrete witnesses. -/
def shipW : ShippingData := ⟨"12 A Street", "Pune", "MH", "411001", "9876543210"⟩

/-- A catalog with two active products, used by concrete witnesses. -/
def prodsW : List (Nat × Product) :=
  [(1, ⟨10, 1000, "Phone", true⟩), (2, ⟨5, 50, "Case", true⟩)]

/-- A state with products only. -/
def dbW : DBState := ⟨prodsW, [], [], [], [], 1⟩

/-! ### Claim theorems -/

/-- C2: Product.update_stock is a conditional update: when the product
exists and its stock plus delta stays nonnegative, the call succeeds and
sets stock to stock + delta (touching nothing else); otherwise it fails and
leaves the state unchanged; consequently it preserves nonnegativity of all
stocks. -/
theorem update_stock_conditional (db : DBState) (pid : Nat) (delta : Int) :
    (∀ p, lookupP db.products pid = some p →
      (0 ≤ p.stock + delta →
        (update_stock db pid delta).1 = true ∧
        stockOf (update_stock db pid delta).2 pid = some (p.stock + delta) ∧
        (∀ q, q ≠ pid →
          stockOf (update_stock db pid delta).2 q = stockOf db q) ∧
        ((update_stock db pid delta).2).cart = db.cart ∧
        ((update_stock db pid delta).2).orders = db.orders) ∧
      (¬ 0 ≤ p.stock + delta → update_stock db pid delta = (false, db))) ∧
    ((∀ e ∈ db.products, 0 ≤ e.2.stock) →
      ∀ e ∈ ((update_stock db pid delta).2).products, 0 ≤ e.2.stock) := by
  constructor
  · intro p hp
    constructor
    · intro hcond
      have hP : update_stockP db.products pid delta =
          (true, setProduct db.products pid { p with stock := p.stock + delta }) := by
        unfold update_stockP
        rw [hp]
        dsimp only
        rw [if_pos hcond]
      refine ⟨?_, ?_, ?_, rfl, rfl⟩
      · show (update_stockP db.products pid delta).1 = true
        rw [hP]
      · show (lookupP (update_stockP db.products pid delta).2 pid).map _ = _
        rw [hP, lookupP_set]
        simp [hp]
      · intro q hq
        show (lookupP (update_stockP db.products pid delta).2 q).map _ = _
        rw [hP, lookupP_set]
        simp [hq, stockOf]
    · intro hcond
      have hP : update_stockP db.products pid delta = (false, db.products) := by
        unfold update_stockP
        rw [hp]
        dsimp only
        rw [if_neg hcond]
      show (_, _) = ((false, db) : Bool × DBState)
      rw [hP]
  · intro hnn e he
    exact update_stockP_nonneg db.products pid delta hnn e he

/-- C2 witness: on a product with stock 10, delta -3 succeeds giving
stock 7; delta -11 fails leaving the state unchanged; and nonnegativity is
preserved. -/
theorem update_stock_conditional_witness :
    (update_stock dbW 1 (-3)).1 = true ∧
    stockOf (update_stock dbW 1 (-3)).2 1 = some 7 ∧
    update_stock dbW 1 (-11) = (false, dbW) := by
  have h3 := (update_stock_conditional dbW 1 (-3)).1 ⟨10, 1000, "Phone", true⟩
    (by decide)
  have h11 := (update_stock_conditional dbW 1 (-11)).1 ⟨10, 1000, "Phone", true⟩
    (by decide)
  exact ⟨(h3.1 (by decide)).1, (h3.1 (by decide)).2.1, h11.2 (by decide)⟩

/-- C7: finalize_order is idempotent on an already-Confirmed order: it
returns success, the status stays Confirmed, and no product stock is
mutated. -/
theorem finalize_order_idempotent (db : DBState) (oid : Nat) (now : Nat)
    (o : OrderRow) (ho : get_by_id db oid = some o)
    (hconf : o.status = OrderStatus.Confirmed) :
    (finalize_order db oid now).1 = true ∧
    (get_by_id (finalize_order db oid now).2 oid).map (fun x => x.status) =
      some OrderStatus.Confirmed ∧
    ((finalize_order db oid now).2).products = db.products := by
  have hsome : (db.orders.find? (fun r => r.id == oid)).isSome = true := by
    unfold get_by_id at ho
    rw [ho]
    rfl
  have hF : finalize_order db oid now =
      (true, { db with orders :=
        (updateOrders db.orders oid (setStatus OrderStatus.Confirmed now)) }) := by
    unfold finalize_order update_status
    rw [if_pos hsome]
  refine ⟨by rw [hF], ?_, by rw [hF]⟩
  rw [hF]
  show (List.find? _ (updateOrders db.orders oid _)).map _ = _
  rw [find?_updateOrders_same db.orders oid
        (setStatus OrderStatus.Confirmed now) (fun r => rfl)]
  unfold get_by_id at ho
  rw [ho]
  rfl

/-- C7 witness: a state holding one Confirmed order. -/
theorem finalize_order_idempotent_witness :
    (finalize_order ⟨prodsW, [], [⟨1, 7, "ORD1", 100, shipW,
      OrderStatus.Confirmed, none, 5⟩], [], [], 2⟩ 1 9).1 = true ∧
    (get_by_id (finalize_order ⟨prodsW, [], [⟨1, 7, "ORD1", 100, shipW,
      OrderStatus.Confirmed, none, 5⟩], [], [], 2⟩ 1 9).2 1).map
        (fun x => x.status) = some OrderStatus.Confirmed := by
  have h := finalize_order_idempotent ⟨prodsW, [], [⟨1, 7, "ORD1", 100, shipW,
    OrderStatus.Confirmed, none, 5⟩], [], [], 2⟩ 1 9
    ⟨1, 7, "ORD1", 100, shipW, OrderStatus.Confirmed, none, 5⟩ (by decide) rfl
  exact ⟨h.1, h.2.1⟩

/-- C10: the payment simulator never fails: process_payment always returns
a payment row whose status is Pending for COD and Success otherwise; the
Failed status is unreachable through it. -/
theorem process_payment_simulated (db : DBState) (oid : Nat)
    (method : PayMethod) (amount : Int) (txid : String) :
    (process_payment db oid method amount txid).1 =
      some ⟨oid, txid, method, amount,
        if method = PayMethod.COD then PayStatus.Pending
        else PayStatus.Success⟩ ∧
    (method ≠ PayMethod.COD →
      (process_payment db oid method amount txid).1 =
        some ⟨oid, txid, method, amount, PayStatus.Success⟩) ∧
    (∀ r, (process_payment db oid method amount txid).1 = some r →
      r.payment_status ≠ PayStatus.Failed) := by
  have h1 : (process_payment db oid method amount txid).1 =
      some ⟨oid, txid, method, amount,
        if method = PayMethod.COD then PayStatus.Pending
        else PayStatus.Success⟩ := by
    cases hx : (db.payments.find? (fun p => p.order_id == oid)).isSome with
    | true => simp [process_payment, hx]
    | false => simp [process_payment, hx]
  refine ⟨h1, ?_, ?_⟩
  · intro hm
    rw [h1, if_neg hm]
  · intro r hr
    rw [h1] at hr
    have hre : r = ⟨oid, txid, method, amount,
        if method = PayMethod.COD then PayStatus.Pending
        else PayStatus.Success⟩ := (Option.some.inj hr).symm
    subst hre
    by_cases hm : method = PayMethod.COD <;> simp [hm]

/-- C10 witness: a Card payment yields Success, a COD payment Pending. -/
theorem process_payment_simulated_witness :
    (process_payment dbW 1 PayMethod.Card 500 "TXN1").1 =
      some ⟨1, "TXN1", PayMethod.Card, 500, PayStatus.Success⟩ ∧
    (process_payment dbW 1 PayMethod.COD 500 "TXN1").1 =
      some ⟨1, "TXN1", PayMethod.COD, 500, PayStatus.Pending⟩ := by
  have hc := (process_payment_simulated dbW 1 PayMethod.Card 500 "TXN1").2.1
    (by decide)
  have hd := (process_payment_simulated dbW 1 PayMethod.COD 500 "TXN1").1
  exact ⟨hc, hd⟩

/-- UPDATE cart SET quantity WHERE the (user, product) pair matches keeps
the line findable with the new quantity. -/
theorem find?_cart_update (cart : List CartLine) (u pid : Nat) (newQty : Int) :
    List.find? (fun l => l.user_id == u && l.product_id == pid)
      (cart.map (fun l => if l.user_id == u && l.product_id == pid then
        { l with quantity := newQty } else l)) =
    (List.find? (fun l => l.user_id == u && l.product_id == pid) cart).map
      (fun l => { l with quantity := newQty }) := by
  induction cart with
  | nil => rfl
  | cons l rest ih =>
    cases hc : (l.user_id == u && l.product_id == pid) with
    | true =>
      have hc2 : (({ l with quantity := newQty } : CartLine).user_id == u &&
          ({ l with quantity := newQty } : CartLine).product_id == pid) = true := hc
      simp only [List.map_cons, hc, if_true, List.find?_cons, hc2]
      rfl
    | false =>
      simp only [List.map_cons, hc, Bool.false_eq_true, if_false,
                 List.find?_cons]
      exact ih

/-- C8: Cart.add_item fails (leaving the cart unchanged) exactly when the
quantity is nonpositive, the product is absent or inactive, or the existing
cart quantity plus the new quantity exceeds current stock; otherwise it
succeeds and the (user, product) line holds the merged quantity. -/
theorem add_item_contract (db : DBState) (u pid : Nat) (qty : Int) :
    ((add_item db u pid qty).1 = true ↔
      (0 < qty ∧ ∃ p, lookupP db.products pid = some p ∧ p.is_active = true ∧
        (getCartQty db u pid).getD 0 + qty ≤ p.stock)) ∧
    ((add_item db u pid qty).1 = false → (add_item db u pid qty).2 = db) ∧
    ((add_item db u pid qty).1 = true →
      getCartQty (add_item db u pid qty).2 u pid =
        some ((getCartQty db u pid).getD 0 + qty)) := by
  by_cases hq : qty ≤ 0
  · have hr : add_item db u pid qty = (false, db) := by
      unfold add_item
      rw [if_pos hq]
    rw [hr]
    refine ⟨?_, fun _ => rfl, fun h => absurd h (by simp)⟩
    simp only [Bool.false_eq_true, false_iff]
    intro hcontra
    omega
  · cases hp : lookupP db.products pid with
    | none =>
      have hr : add_item db u pid qty = (false, db) := by
        unfold add_item
        rw [if_neg hq, hp]
      rw [hr]
      refine ⟨?_, fun _ => rfl, fun h => absurd h (by simp)⟩
      simp
    | some p =>
      cases hact : p.is_active with
      | false =>
        have hr : add_item db u pid qty = (false, db) := by
          simp [add_item, hq, hp, hact]
        rw [hr]
        refine ⟨?_, fun _ => rfl, fun h => absurd h (by simp)⟩
        simp only [Bool.false_eq_true, false_iff]
        rintro ⟨-, p2, hp2, hact2, -⟩
        cases Option.some.inj hp2
        rw [hact] at hact2
        exact absurd hact2 (by simp)
      | true =>
        cases hex : db.cart.find?
            (fun l => l.user_id == u && l.product_id == pid) with
        | some existing =>
          have hold : (getCartQty db u pid).getD 0 = existing.quantity := by
            unfold getCartQty
            rw [hex]
            rfl
          by_cases hlt : p.stock < existing.quantity + qty
          · have hr : add_item db u pid qty = (false, db) := by
              simp [add_item, hq, hp, hact, hex, hlt]
            rw [hr]
            refine ⟨?_, fun _ => rfl, fun h => absurd h (by simp)⟩
            simp only [Bool.false_eq_true, false_iff]
            rintro ⟨-, p2, hp2, -, hle⟩
            cases Option.some.inj hp2
            rw [hold] at hle
            omega
          · have hr : add_item db u pid qty =
                (true, { db with cart := db.cart.map (fun l =>
                  if l.user_id == u && l.product_id == pid then
                    { l with quantity := existing.quantity + qty } else l) }) := by
              simp [add_item, hq, hp, hact, hex, hlt]
            rw [hr]
            refine ⟨?_, fun h => absurd h (by simp), ?_⟩
            · simp only [true_iff]
              exact ⟨by omega, p, rfl, hact, by rw [hold]; omega⟩
            · intro _
              unfold getCartQty
              dsimp only
              rw [find?_cart_update, hex]
              rfl
        | none =>
          have hold : (getCartQty db u pid).getD 0 = 0 := by
            unfold getCartQty
            rw [hex]
            rfl
          by_cases hlt : p.stock < qty
          · have hr : add_item db u pid qty = (false, db) := by
              simp [add_item, hq, hp, hact, hex, hlt]
            rw [hr]
            refine ⟨?_, fun _ => rfl, fun h => absurd h (by simp)⟩
            simp only [Bool.false_eq_true, false_iff]
            rintro ⟨-, p2, hp2, -, hle⟩
            cases Option.some.inj hp2
            rw [hold] at hle
            omega
          · have hr : add_item db u pid qty =
                (true, { db with cart := db.cart ++ [⟨u, pid, qty⟩] }) := by
              simp [add_item, hq, hp, hact, hex, hlt]
            rw [hr]
            refine ⟨?_, fun h => absurd h (by simp), ?_⟩
            · simp only [true_iff]
              exact ⟨by omega, p, rfl, hact, by rw [hold]; omega⟩
            · intro _
              unfold getCartQty
              dsimp only
              rw [List.find?_append, hex]
              simp

/-- C8 witness: with stock 5, adding quantity 3 twice for the same user and
product: the first call succeeds, the second fails and the line's quantity
stays 3. -/
theorem add_item_contract_witness :
    (add_item dbW 7 2 3).1 = true ∧
    getCartQty (add_item dbW 7 2 3).2 7 2 = some 3 ∧
    (add_item (add_item dbW 7 2 3).2 7 2 3).1 = false ∧
    (add_item (add_item dbW 7 2 3).2 7 2 3).2 = (add_item dbW 7 2 3).2 := by
  have h1 := add_item_contract dbW 7 2 3
  have hts : (add_item dbW 7 2 3).1 = true := by
    rw [h1.1]
    exact ⟨by decide, ⟨5, 50, "Case", true⟩, by decide, rfl, by decide⟩
  have h2 := add_item_contract (add_item dbW 7 2 3).2 7 2 3
  have hfs : (add_item (add_item dbW 7 2 3).2 7 2 3).1 = false := by
    decide
  refine ⟨hts, ?_, hfs, h2.2.1 hfs⟩
  have := h1.2.2 hts
  simpa using this

theorem mkHeader_id (db : DBState) (u : Nat) (ship : ShippingData)
    (onum : String) (now : Nat) :
    (mkHeader db u ship onum now).id = db.nextOrderId := rfl

theorem mkHeader_user (db : DBState) (u : Nat) (ship : ShippingData)
    (onum : String) (now : Nat) :
    (mkHeader db u ship onum now).user_id = u := rfl

theorem mkHeader_status (db : DBState) (u : Nat) (ship : ShippingData)
    (onum : String) (now : Nat) :
    (mkHeader db u ship onum now).status = OrderStatus.Pending := rfl

/-- A cart line with user 7 wanting 3 units of product 1, over the dbW
catalog; used by concrete witnesses. -/
def dbC : DBState := ⟨prodsW, [⟨7, 1, 3⟩], [], [], [], 1⟩

/-- C1: create_order is atomic: on success the Pending order header exists,
one order line per cart line exists, every line product's stock is
decremented by the line quantity, and the user's cart is cleared; on
failure the returned state is exactly the pre-call state (cart intact, no
header, no lines, no stock change). -/
theorem create_order_atomic (db : DBState) (u : Nat) (ship : ShippingData)
    (onum : String) (now : Nat)
    (hfresh_o : ∀ o ∈ db.orders, o.id ≠ db.nextOrderId)
    (hfresh_i : ∀ r ∈ db.order_items, r.order_id ≠ db.nextOrderId)
    (hnd : (viewPids (get_cart_items db u)).Nodup) :
    (∀ o db2, create_order db u ship onum now = (some o, db2) →
      get_by_id db2 o.id = some o ∧ o.status = OrderStatus.Pending ∧
      get_order_items db2 o.id = (get_cart_items db u).map (toItemRow o.id) ∧
      (∀ it ∈ get_cart_items db u, ∃ s0,
        stockOf db it.product_id = some s0 ∧
        stockOf db2 it.product_id = some (s0 - it.quantity)) ∧
      get_cart_items db2 u = []) ∧
    (∀ db2, create_order db u ship onum now = (none, db2) → db2 = db) := by
  rcases create_order_cases db u ship onum now with hfail |
    ⟨rows, ps2, hne, hall, hins, hsucc⟩
  · constructor
    · intro o db2 h
      rw [hfail] at h
      exact absurd (congrArg Prod.fst h) (by simp)
    · intro db2 h
      rw [hfail] at h
      exact (congrArg Prod.snd h).symm
  · constructor
    · intro o db2 h
      rw [hsucc] at h
      have ho : o = mkHeader db u ship onum now :=
        (Option.some.inj (congrArg Prod.fst h)).symm
      subst ho
      have hdb2 := (congrArg Prod.snd h).symm
      subst hdb2
      have hrows : rows = (get_cart_items db u).map (toItemRow db.nextOrderId) :=
        (insertOrderItems_spec (get_cart_items db u) db.products db.nextOrderId
          rows ps2 hins).1
      refine ⟨?_, rfl, ?_, ?_, ?_⟩
      · show List.find? _ (db.orders ++ [mkHeader db u ship onum now]) = _
        exact find?_orders_fresh db.orders (mkHeader db u ship onum now)
          (fun r hr => hfresh_o r hr)
      · show (db.order_items ++ rows).filter _ =
          (get_cart_items db u).map (toItemRow (mkHeader db u ship onum now).id)
        rw [mkHeader_id, List.filter_append,
            filter_items_fresh db.order_items db.nextOrderId hfresh_i,
            hrows, filter_items_all]
        simp
      · intro it hit
        obtain ⟨p, hl, hc, hl2⟩ := insertOrderItems_stock (get_cart_items db u)
          db.products db.nextOrderId rows ps2 hnd hins it hit
        refine ⟨p.stock, ?_, ?_⟩
        · show (lookupP db.products it.product_id).map _ = some p.stock
          rw [hl]
          rfl
        · show (lookupP ps2 it.product_id).map _ = some (p.stock - it.quantity)
          rw [hl2]
          rfl
      · exact get_cart_items_filter db _ u rfl
    · intro db2 h
      rw [hsucc] at h
      exact absurd (congrArg Prod.fst h) (by simp)

/-- C1 witness: on a one-line cart (user 7, product 1, quantity 3, stock
10), create_order succeeds, leaves stock 7, inserts the line and clears
the cart. -/
theorem create_order_atomic_witness :
    get_cart_items (create_order dbC 7 shipW "ORD1" 0).2 7 = [] ∧
    stockOf (create_order dbC 7 shipW "ORD1" 0).2 1 = some 7 := by
  have h := (create_order_atomic dbC 7 shipW "ORD1" 0 (by decide) (by decide)
    (by decide)).1 (mkHeader dbC 7 shipW "ORD1" 0)
    ((create_order dbC 7 shipW "ORD1" 0).2) rfl
  refine ⟨h.2.2.2.2, ?_⟩
  have hs := h.2.2.2.1 ⟨1, "Phone", 1000, 10, 3, 3000⟩ (by decide)
  obtain ⟨s0, hs0, hs1⟩ := hs
  have : s0 = 10 := by
    rw [show stockOf dbC 1 = some 10 from rfl] at hs0
    exact (Option.some.inj hs0).symm
  rw [this] at hs1
  exact hs1

/-- C3: order-line creation and stock decrement are inseparable: a
successful create_order inserts exactly one line per cart item and
decrements exactly those products' stocks by the line quantities (no other
stock is touched); a failed create_order inserts no line and changes no
stock; and finalize_order neither inserts lines nor touches stock. -/
theorem lines_stock_inseparable (db : DBState) (u : Nat) (ship : ShippingData)
    (onum : String) (now : Nat)
    (hnd : (viewPids (get_cart_items db u)).Nodup) :
    (∀ o db2, create_order db u ship onum now = (some o, db2) →
      db2.order_items =
        db.order_items ++ (get_cart_items db u).map (toItemRow o.id) ∧
      (∀ it ∈ get_cart_items db u, ∃ s0,
        stockOf db it.product_id = some s0 ∧
        stockOf db2 it.product_id = some (s0 - it.quantity)) ∧
      (∀ q, q ∉ viewPids (get_cart_items db u) →
        stockOf db2 q = stockOf db q)) ∧
    (∀ db2, create_order db u ship onum now = (none, db2) →
      db2.order_items = db.order_items ∧ ∀ q, stockOf db2 q = stockOf db q) ∧
    (∀ oid now2, ((finalize_order db oid now2).2).products = db.products ∧
      ((finalize_order db oid now2).2).order_items = db.order_items) := by
  refine ⟨?_, ?_, ?_⟩
  · intro o db2 h
    rcases create_order_cases db u ship onum now with hfail |
      ⟨rows, ps2, hne, hall, hins, hsucc⟩
    · rw [hfail] at h
      exact absurd (congrArg Prod.fst h) (by simp)
    · rw [hsucc] at h
      have ho : o = mkHeader db u ship onum now :=
        (Option.some.inj (congrArg Prod.fst h)).symm
      subst ho
      have hdb2 := (congrArg Prod.snd h).symm
      subst hdb2
      obtain ⟨hrows, hframe, -⟩ := insertOrderItems_spec (get_cart_items db u)
        db.products db.nextOrderId rows ps2 hins
      refine ⟨?_, ?_, ?_⟩
      · rw [mkHeader_id]
        show db.order_items ++ rows = _
        rw [hrows]
      · intro it hit
        obtain ⟨p, hl, hc, hl2⟩ := insertOrderItems_stock (get_cart_items db u)
          db.products db.nextOrderId rows ps2 hnd hins it hit
        refine ⟨p.stock, ?_, ?_⟩
        · show (lookupP db.products it.product_id).map _ = some p.stock
          rw [hl]
          rfl
        · show (lookupP ps2 it.product_id).map _ = some (p.stock - it.quantity)
          rw [hl2]
          rfl
      · intro q hq
        show (lookupP ps2 q).map _ = _
        rw [hframe q hq]
        rfl
  · intro db2 h
    rcases create_order_cases db u ship onum now with hfail |
      ⟨rows, ps2, hne, hall, hins, hsucc⟩
    · rw [hfail] at h
      have := (congrArg Prod.snd h).symm
      subst this
      exact ⟨rfl, fun q => rfl⟩
    · rw [hsucc] at h
      exact absurd (congrArg Prod.fst h) (by simp)
  · intro oid now2
    unfold finalize_order update_status
    split
    · exact ⟨rfl, rfl⟩
    · exact ⟨rfl, rfl⟩

/-- C3 witness: on the one-line cart state, the successful creation inserts
exactly the order line for product 1 and leaves product 2's stock alone. -/
theorem lines_stock_inseparable_witness :
    ((create_order dbC 7 shipW "ORD1" 0).2).order_items =
      [⟨1, 1, "Phone", 1000, 3, 3000⟩] ∧
    stockOf (create_order dbC 7 shipW "ORD1" 0).2 2 = stockOf dbC 2 := by
  have h := (lines_stock_inseparable dbC 7 shipW "ORD1" 0 (by decide)).1
    (mkHeader dbC 7 shipW "ORD1" 0) ((create_order dbC 7 shipW "ORD1" 0).2) rfl
  refine ⟨?_, h.2.2 2 (by decide)⟩
  rw [h.1]
  rfl

/-! ### Service-level cancel/return lemmas -/

theorem cancel_order_success (db : DBState) (oid uid : Nat) (reason : String)
    (now : Nat) (o : OrderRow) (ho : get_by_id db oid = some o)
    (hu : o.user_id = uid)
    (hst : ¬(o.status = OrderStatus.Delivered ∨
             o.status = OrderStatus.Cancelled)) :
    cancel_order db oid uid reason now =
      ((true, "Order cancelled successfully"),
       { db with
           products := restoreP db.products (get_order_items db oid)
           orders := (updateOrders db.orders oid
             (markOrder OrderStatus.Cancelled reason now)) }) := by
  have hsome : (db.orders.find? (fun r => r.id == oid)).isSome = true := by
    show (get_by_id db oid).isSome = true
    rw [ho]
    rfl
  unfold cancel_order
  rw [ho]
  dsimp only
  rw [if_neg (fun hne => hne hu), if_neg hst]
  unfold cancel_order_row
  rw [if_pos hsome]
  dsimp only
  rfl

theorem return_order_success (db : DBState) (oid uid : Nat) (reason : String)
    (now : Nat) (o : OrderRow) (ho : get_by_id db oid = some o)
    (hu : o.user_id = uid) (hel : is_returnable o now = true) :
    return_order db oid uid reason now =
      ((true, "Return request submitted"),
       { db with
           products := restoreP db.products (get_order_items db oid)
           orders := (updateOrders db.orders oid
             (markOrder OrderStatus.Returned reason now)) }) := by
  have hsome : (db.orders.find? (fun r => r.id == oid)).isSome = true := by
    show (get_by_id db oid).isSome = true
    rw [ho]
    rfl
  unfold return_order
  rw [ho]
  dsimp only
  rw [if_neg (fun hne => hne hu), hel]
  unfold return_order_row
  rw [if_pos hsome]
  dsimp only
  rfl

/-- An order state with a Returned order owned by user 7, one order line of
quantity 2 on product 1. -/
def dbC4 : DBState :=
  ⟨prodsW, [], [⟨1, 7, "ORD9", 100, shipW, OrderStatus.Returned,
    some "was returned", 0⟩], [⟨1, 1, "Phone", 1000, 2, 2000⟩], [], 2⟩

/-- C4 counterexample: the claim says cancel_order must reject an order in
status Returned as not cancellable; on a Returned order the code instead
succeeds, sets the status to Cancelled and restores stock a second time
(10 + 2 = 12). -/
theorem cancel_order_claim_counterexample :
    (get_by_id dbC4 1).map (fun o => o.status) = some OrderStatus.Returned ∧
    ((cancel_order dbC4 1 7 "changed mind" 5).1).1 = true ∧
    (get_by_id (cancel_order dbC4 1 7 "changed mind" 5).2 1).map
      (fun o => o.status) = some OrderStatus.Cancelled ∧
    stockOf (cancel_order dbC4 1 7 "changed mind" 5).2 1 = some 12 :=
  ⟨rfl, rfl, rfl, rfl⟩

/-- C4 (amended): cancel_order rejects a caller that does not own the order
as Unauthorized and rejects orders in status Delivered or Cancelled (only
these two; a Returned order is accepted); on acceptance it succeeds, sets
the status to Cancelled, records the reason, and restores stock by
incrementing each order line's product by the line quantity. -/
theorem cancel_order_contract (db : DBState) (oid uid : Nat) (reason : String)
    (now : Nat) (o : OrderRow) (ho : get_by_id db oid = some o) :
    (o.user_id ≠ uid →
      cancel_order db oid uid reason now = ((false, "Unauthorized"), db)) ∧
    (o.user_id = uid →
      (o.status = OrderStatus.Delivered ∨ o.status = OrderStatus.Cancelled) →
      cancel_order db oid uid reason now =
        ((false, "Order cannot be cancelled"), db)) ∧
    (o.user_id = uid →
      ¬(o.status = OrderStatus.Delivered ∨
        o.status = OrderStatus.Cancelled) →
      ((cancel_order db oid uid reason now).1 =
          (true, "Order cancelled successfully") ∧
       (get_by_id (cancel_order db oid uid reason now).2 oid).map
          (fun x => x.status) = some OrderStatus.Cancelled ∧
       (get_by_id (cancel_order db oid uid reason now).2 oid).map
          (fun x => x.return_reason) = some (some reason) ∧
       ((itemPids (get_order_items db oid)).Nodup →
        ∀ r ∈ get_order_items db oid, ∀ p,
          lookupP db.products r.product_id = some p →
          0 ≤ p.stock + r.quantity →
          stockOf (cancel_order db oid uid reason now).2 r.product_id =
            some (p.stock + r.quantity)))) := by
  refine ⟨?_, ?_, ?_⟩
  · intro hne
    unfold cancel_order
    rw [ho]
    dsimp only
    rw [if_pos hne]
  · intro hu hst
    unfold cancel_order
    rw [ho]
    dsimp only
    rw [if_neg (fun hne => hne hu), if_pos hst]
  · intro hu hst
    have hC := cancel_order_success db oid uid reason now o ho hu hst
    rw [hC]
    refine ⟨rfl, ?_, ?_, ?_⟩
    · show (List.find? _ (updateOrders db.orders oid _)).map _ = _
      rw [find?_updateOrders_same db.orders oid
            (markOrder OrderStatus.Cancelled reason now) (fun r => rfl)]
      show ((get_by_id db oid).map _).map _ = _
      rw [ho]
      rfl
    · show (List.find? _ (updateOrders db.orders oid _)).map _ = _
      rw [find?_updateOrders_same db.orders oid
            (markOrder OrderStatus.Cancelled reason now) (fun r => rfl)]
      show ((get_by_id db oid).map _).map _ = _
      rw [ho]
      rfl
    · intro hndI r hr p hp hcond
      show (lookupP (restoreP db.products (get_order_items db oid))
        r.product_id).map _ = _
      rw [restoreP_mem (get_order_items db oid) db.products hndI r hr p hp
            hcond]
      rfl

/-- C4 witness: a Pending order owned by user 7 is cancelled: success,
status Cancelled, reason recorded, stock restored from 10 to 12 for the
2-unit line; an unauthorized caller (user 8) is rejected. -/
theorem cancel_order_contract_witness :
    (cancel_order dbC4 1 8 "x" 5).1 = (false, "Unauthorized") ∧
    ((cancel_order dbC4 1 7 "changed mind" 5).1 =
      (true, "Order cancelled successfully") ∧
     stockOf (cancel_order dbC4 1 7 "changed mind" 5).2 1 = some 12) := by
  have h := cancel_order_contract dbC4 1 7 "changed mind" 5
    ⟨1, 7, "ORD9", 100, shipW, OrderStatus.Returned, some "was returned", 0⟩
    rfl
  have h8 := cancel_order_contract dbC4 1 8 "x" 5
    ⟨1, 7, "ORD9", 100, shipW, OrderStatus.Returned, some "was returned", 0⟩
    rfl
  have h3 := h.2.2 rfl (by decide)
  refine ⟨by rw [h8.1 (by decide)], h3.1, ?_⟩
  have := h3.2.2.2 (by decide) ⟨1, 1, "Phone", 1000, 2, 2000⟩ (by decide)
    ⟨10, 1000, "Phone", true⟩ rfl (by decide)
  simpa using this

/-- C5: compensation round-trip: if create_order succeeds from a
nonnegative-stock state, a subsequent cancel_order of the created order
succeeds and restores every product's stock to its pre-order value. -/
theorem create_cancel_roundtrip (db : DBState) (u : Nat) (ship : ShippingData)
    (onum reason : String) (now now2 : Nat) (o : OrderRow) (db1 : DBState)
    (hnn : ∀ e ∈ db.products, 0 ≤ e.2.stock)
    (hnd : (viewPids (get_cart_items db u)).Nodup)
    (hfresh_o : ∀ r ∈ db.orders, r.id ≠ db.nextOrderId)
    (hfresh_i : ∀ r ∈ db.order_items, r.order_id ≠ db.nextOrderId)
    (hcr : create_order db u ship onum now = (some o, db1)) :
    ((cancel_order db1 o.id u reason now2).1).1 = true ∧
    (∀ q, stockOf (cancel_order db1 o.id u reason now2).2 q = stockOf db q) := by
  rcases create_order_cases db u ship onum now with hfail |
    ⟨rows, ps2, hne, hall, hins, hsucc⟩
  · rw [hfail] at hcr
    exact absurd (congrArg Prod.fst hcr) (by simp)
  · rw [hsucc] at hcr
    have ho : o = mkHeader db u ship onum now :=
      (Option.some.inj (congrArg Prod.fst hcr)).symm
    subst ho
    have hdb1 : db1 =
        { db with
            products := ps2
            orders := db.orders ++ [mkHeader db u ship onum now]
            order_items := db.order_items ++ rows
            cart := db.cart.filter (fun l => l.user_id != u)
            nextOrderId := db.nextOrderId + 1 } :=
      (congrArg Prod.snd hcr).symm
    have hrows : rows = (get_cart_items db u).map (toItemRow db.nextOrderId) :=
      (insertOrderItems_spec (get_cart_items db u) db.products db.nextOrderId
        rows ps2 hins).1
    have hfo : get_by_id db1 (mkHeader db u ship onum now).id =
        some (mkHeader db u ship onum now) := by
      unfold get_by_id
      rw [hdb1]
      exact find?_orders_fresh db.orders (mkHeader db u ship onum now)
        (fun r hr => hfresh_o r hr)
    have hgoi : get_order_items db1 (mkHeader db u ship onum now).id = rows := by
      unfold get_order_items
      rw [hdb1, mkHeader_id]
      show (db.order_items ++ rows).filter _ = rows
      rw [List.filter_append,
          filter_items_fresh db.order_items db.nextOrderId hfresh_i, hrows,
          filter_items_all]
      simp [hrows]
    have hprod1 : db1.products = ps2 := by rw [hdb1]
    have hC := cancel_order_success db1 (mkHeader db u ship onum now).id u
      reason now2 (mkHeader db u ship onum now) hfo rfl
      (by simp [mkHeader_status])
    rw [hC]
    refine ⟨rfl, ?_⟩
    intro q
    show (lookupP (restoreP db1.products
      (get_order_items db1 (mkHeader db u ship onum now).id)) q).map _ = _
    rw [hprod1, hgoi,
        restore_after_insert (get_cart_items db u) db.products db.nextOrderId
          rows ps2 hnn hnd hins q]
    rfl

/-- C5 witness: on the one-line cart (product 1, quantity 3, stock 10),
create then cancel brings product 1's stock back to 10 (and leaves
product 2's at 5). -/
theorem create_cancel_roundtrip_witness :
    ((cancel_order (create_order dbC 7 shipW "ORD1" 0).2
        (mkHeader dbC 7 shipW "ORD1" 0).id 7 "mind" 9).1).1 = true ∧
    stockOf (cancel_order (create_order dbC 7 shipW "ORD1" 0).2
        (mkHeader dbC 7 shipW "ORD1" 0).id 7 "mind" 9).2 1 = some 10 ∧
    stockOf (cancel_order (create_order dbC 7 shipW "ORD1" 0).2
        (mkHeader dbC 7 shipW "ORD1" 0).id 7 "mind" 9).2 2 = some 5 := by
  have h := create_cancel_roundtrip dbC 7 shipW "ORD1" "mind" 0 9
    (mkHeader dbC 7 shipW "ORD1" 0) ((create_order dbC 7 shipW "ORD1" 0).2)
    (by decide) (by decide) (by decide) (by decide) rfl
  exact ⟨h.1, h.2 1, h.2 2⟩

/-- The Delivered order used by the return-eligibility witness. -/
def oC6 : OrderRow := ⟨1, 7, "ORD6", 100, shipW, OrderStatus.Delivered, none, 0⟩

/-- A state with one Delivered order (delivery time 0) of one 2-unit line. -/
def dbC6 : DBState := ⟨prodsW, [], [oC6], [⟨1, 1, "Phone", 1000, 2, 2000⟩], [], 2⟩

/-- C6: after the authorization check, return_order succeeds exactly when
the order is Delivered and at most 7 days (604800 s) have elapsed since the
delivery timestamp; on failure the state is unchanged; on success the
status becomes Returned, the reason is recorded, and each line's product
stock is incremented by the line quantity. -/
theorem return_order_eligibility (db : DBState) (oid uid : Nat)
    (reason : String) (now : Nat) (o : OrderRow)
    (ho : get_by_id db oid = some o) (hu : o.user_id = uid) :
    (((return_order db oid uid reason now).1).1 = true ↔
      (o.status = OrderStatus.Delivered ∧ now ≤ o.updated_at + 7 * 86400)) ∧
    (((return_order db oid uid reason now).1).1 = false →
      (return_order db oid uid reason now).2 = db) ∧
    (((return_order db oid uid reason now).1).1 = true →
      (get_by_id (return_order db oid uid reason now).2 oid).map
        (fun x => x.status) = some OrderStatus.Returned ∧
      (get_by_id (return_order db oid uid reason now).2 oid).map
        (fun x => x.return_reason) = some (some reason) ∧
      ((itemPids (get_order_items db oid)).Nodup →
        ∀ r ∈ get_order_items db oid, ∀ p,
          lookupP db.products r.product_id = some p →
          0 ≤ p.stock + r.quantity →
          stockOf (return_order db oid uid reason now).2 r.product_id =
            some (p.stock + r.quantity))) := by
  cases hel : is_returnable o now with
  | false =>
    have hR : return_order db oid uid reason now =
        ((false, "Order not eligible for return"), db) := by
      unfold return_order
      rw [ho]
      dsimp only
      rw [if_neg (fun hne => hne hu), hel]
      rfl
    have hcond : ¬(o.status = OrderStatus.Delivered ∧
        now ≤ o.updated_at + 7 * 86400) := by
      intro hcontra
      have : is_returnable o now = true := by
        unfold is_returnable
        simp [hcontra.1, hcontra.2]
      rw [hel] at this
      exact absurd this (by simp)
    rw [hR]
    refine ⟨?_, fun _ => rfl, fun h => absurd h (by simp)⟩
    simp only [Bool.false_eq_true, false_iff]
    exact hcond
  | true =>
    have hcond : o.status = OrderStatus.Delivered ∧
        now ≤ o.updated_at + 7 * 86400 := by
      have := hel
      unfold is_returnable at this
      simpa using this
    have hR := return_order_success db oid uid reason now o ho hu hel
    rw [hR]
    refine ⟨by simp only [true_iff]; exact hcond, fun h => absurd h (by simp),
      fun _ => ⟨?_, ?_, ?_⟩⟩
    · show (List.find? _ (updateOrders db.orders oid _)).map _ = _
      rw [find?_updateOrders_same db.orders oid
            (markOrder OrderStatus.Returned reason now) (fun r => rfl)]
      show ((get_by_id db oid).map _).map _ = _
      rw [ho]
      rfl
    · show (List.find? _ (updateOrders db.orders oid _)).map _ = _
      rw [find?_updateOrders_same db.orders oid
            (markOrder OrderStatus.Returned reason now) (fun r => rfl)]
      show ((get_by_id db oid).map _).map _ = _
      rw [ho]
      rfl
    · intro hndI r hr p hp hcond2
      show (lookupP (restoreP db.products (get_order_items db oid))
        r.product_id).map _ = _
      rw [restoreP_mem (get_order_items db oid) db.products hndI r hr p hp
            hcond2]
      rfl

/-- C6 witness: with delivery at time 0, a return at exactly 7 days
(604800 s) succeeds; at 7 days + 1 second (604801 s) it fails as not
eligible and the state is unchanged. -/
theorem return_order_eligibility_witness :
    ((return_order dbC6 1 7 "defect" 604800).1).1 = true ∧
    ((return_order dbC6 1 7 "defect" 604801).1).1 = false ∧
    (return_order dbC6 1 7 "defect" 604801).2 = dbC6 := by
  have h1 := return_order_eligibility dbC6 1 7 "defect" 604800 oC6 rfl rfl
  have h2 := return_order_eligibility dbC6 1 7 "defect" 604801 oC6 rfl rfl
  have ht : ((return_order dbC6 1 7 "defect" 604800).1).1 = true :=
    h1.1.mpr ⟨rfl, by decide⟩
  have hf : ((return_order dbC6 1 7 "defect" 604801).1).1 = false := by
    cases hb : ((return_order dbC6 1 7 "defect" 604801).1).1 with
    | false => rfl
    | true => exact absurd (h2.1.mp hb).2 (by decide)
  exact ⟨ht, hf, h2.2.1 hf⟩

/-! ### C9 -/

theorem cancel_order_products (db : DBState) (oid uid : Nat) (reason : String)
    (now : Nat) :
    ((cancel_order db oid uid reason now).2).products = db.products ∨
    ((cancel_order db oid uid reason now).2).products =
      restoreP db.products (get_order_items db oid) := by
  unfold cancel_order
  cases ho : get_by_id db oid with
  | none => left; rfl
  | some o =>
    dsimp only
    by_cases hu : o.user_id ≠ uid
    · rw [if_pos hu]
      left
      rfl
    · rw [if_neg hu]
      by_cases hst : o.status = OrderStatus.Delivered ∨
          o.status = OrderStatus.Cancelled
      · rw [if_pos hst]
        left
        rfl
      · rw [if_neg hst]
        unfold cancel_order_row
        have hsome : (db.orders.find? (fun r => r.id == oid)).isSome = true := by
          show (get_by_id db oid).isSome = true
          rw [ho]
          rfl
        rw [if_pos hsome]
        dsimp only
        right
        rfl

theorem return_order_products (db : DBState) (oid uid : Nat) (reason : String)
    (now : Nat) :
    ((return_order db oid uid reason now).2).products = db.products ∨
    ((return_order db oid uid reason now).2).products =
      restoreP db.products (get_order_items db oid) := by
  unfold return_order
  cases ho : get_by_id db oid with
  | none => left; rfl
  | some o =>
    dsimp only
    by_cases hu : o.user_id ≠ uid
    · rw [if_pos hu]
      left
      rfl
    · rw [if_neg hu]
      cases hel : is_returnable o now with
      | false =>
        left
        rfl
      | true =>
        unfold return_order_row
        have hsome : (db.orders.find? (fun r => r.id == oid)).isSome = true := by
          show (get_by_id db oid).isSome = true
          rw [ho]
          rfl
        rw [if_pos hsome]
        dsimp only
        right
        rfl

/-- C9 counterexample: the claim says no code path performs a direct
unconditional write to stock, so no operation can make stock negative; but
Product.update (the admin product-edit path) writes the supplied stock
value with no condition and drives stock to -5. -/
theorem admin_stock_write_counterexample :
    (product_update dbW 1 none (some (-5)) none).1 = true ∧
    stockOf (product_update dbW 1 none (some (-5)) none).2 1 = some (-5) :=
  ⟨rfl, rfl⟩

/-- C9 (amended): the order flows — order creation, cancellation, return —
and the adjust-stock primitive itself preserve nonnegativity of every
product's stock; however Product.update (the admin stock edit) performs a
direct unconditional stock write and can violate it (see the
counterexample). -/
theorem order_flows_stock_nonneg (db : DBState)
    (hnn : ∀ e ∈ db.products, 0 ≤ e.2.stock) :
    (∀ pid delta, ∀ e ∈ ((update_stock db pid delta).2).products,
      0 ≤ e.2.stock) ∧
    (∀ u ship onum now, ∀ e ∈ ((create_order db u ship onum now).2).products,
      0 ≤ e.2.stock) ∧
    (∀ oid uid reason now,
      ∀ e ∈ ((cancel_order db oid uid reason now).2).products,
        0 ≤ e.2.stock) ∧
    (∀ oid uid reason now,
      ∀ e ∈ ((return_order db oid uid reason now).2).products,
        0 ≤ e.2.stock) := by
  refine ⟨?_, ?_, ?_, ?_⟩
  · intro pid delta e he
    exact update_stockP_nonneg db.products pid delta hnn e he
  · intro u ship onum now e he
    rcases create_order_cases db u ship onum now with hfail |
      ⟨rows, ps2, hne, hall, hins, hsucc⟩
    · rw [hfail] at he
      exact hnn e he
    · rw [hsucc] at he
      exact (insertOrderItems_spec (get_cart_items db u) db.products
        db.nextOrderId rows ps2 hins).2.2 hnn e he
  · intro oid uid reason now e he
    rcases cancel_order_products db oid uid reason now with hsame | hrest
    · rw [hsame] at he
      exact hnn e he
    · rw [hrest] at he
      exact restoreP_nonneg (get_order_items db oid) db.products hnn e he
  · intro oid uid reason now e he
    rcases return_order_products db oid uid reason now with hsame | hrest
    · rw [hsame] at he
      exact hnn e he
    · rw [hrest] at he
      exact restoreP_nonneg (get_order_items db oid) db.products hnn e he

/-- C9 witness: on the two-product catalog every stock stays nonnegative
after an adjust-stock call. -/
theorem order_flows_stock_nonneg_witness :
    0 ≤ ((1, (⟨7, 1000, "Phone", true⟩ : Product)).2).stock :=
  (order_flows_stock_nonneg dbW (by decide)).1 1 (-3)
    (1, ⟨7, 1000, "Phone", true⟩) (by decide)

end SmartEcommerce
